import Mathlib

/-!
# DTRA-Escrow: the Hardhat configuration and the deployment script

A shallow embedding of `hardhat.config.js` (the network configuration
resolver) and of `scripts/deploy.js` (the deployment orchestrator), followed
by the properties of the two that the specification states.

* The process environment is a finite map from variable names to strings,
  read as a function into `Option String` (`none` is JavaScript `undefined`).
* Everything the script does that the outside can see is an `Event`: a call
  issued to the remote layer, a `console.log` line, a `console.error` value,
  a `process.exit`.  A run extends a chronological list of events.
* The remote layer (Hardhat's `ethers` object, the contract factories, the
  contract and transaction objects they hand back) is a deterministic oracle:
  a function of the calls it has served so far and of the call it is asked.
  It answers with a handle or with a thrown value.
-/

namespace DtraEscrow

/-! ## JavaScript values -/

/-- A value thrown (or a rejected promise's reason): the `name` of its
constructor and its `message`. -/
structure Thrown where
  name : String
  message : String
deriving DecidableEq, Repr, Inhabited

/-- The process environment `process.env` after `dotenv` has loaded `.env`:
each variable is a string or is unset. -/
abbrev Env := String → Option String

/-- JavaScript truthiness of a value that is a string or `undefined`: only
`undefined` and the empty string are falsy. -/
def truthy : Option String → Bool
  | none => false
  | some s => s != ""

/-- The expression `a || b` on a string-or-undefined `a` and a string `b`. -/
def orElse (a : Option String) (b : String) : String :=
  if truthy a then a.getD b else b

/-- The method call `recv.startsWith(p)`: a `TypeError` when the receiver is
`undefined`, otherwise whether the characters of `p` open the receiver. -/
def startsWith (recv : Option String) (p : String) : Except Thrown Bool :=
  match recv with
  | none =>
      .error ⟨"TypeError", "Cannot read properties of undefined (reading startsWith)"⟩
  | some s => .ok (p.toList.isPrefixOf s.toList)

/-! ## `hardhat.config.js` -/

/-- The object literal under `networks.hederaTestnet`: `url` is a string or
`undefined`; `accounts` is `undefined` or an array whose elements are strings
or `undefined`. -/
structure NetworkProfile where
  url : Option String
  accounts : Option (List (Option String))
deriving DecidableEq, Repr

/-- The object literal under `networks`. -/
structure Networks where
  hederaTestnet : NetworkProfile
deriving DecidableEq, Repr

/-- The object assigned to `module.exports`. -/
structure HardhatConfig where
  solidity : String
  networks : Networks
deriving DecidableEq, Repr

/-- The literal `"https://testnet.hashio.io/api"` of lines 8, 33 and 52. -/
def defaultRpcUrl : String := "https://testnet.hashio.io/api"

/-- Lines 4-12: `url` with the default, `accounts` is
`[process.env.PRIVATE_KEY].filter(Boolean)`. -/
def exports1 (env : Env) : HardhatConfig :=
  { solidity := "0.8.20"
    networks :=
      { hederaTestnet :=
          { url := some (orElse (env "HEDERA_RPC_URL") defaultRpcUrl)
            accounts := some ([env "PRIVATE_KEY"].filter truthy) } } }

/-- Lines 16-24: `url` and the single element of `accounts` are the raw
variables. -/
def exports2 (env : Env) : HardhatConfig :=
  { solidity := "0.8.20"
    networks :=
      { hederaTestnet :=
          { url := env "HEDERA_RPC_URL"
            accounts := some [env "HEDERA_OPERATOR_KEY"] } } }

/-- Lines 29-37: `url` with the default, `accounts` holds the raw variable. -/
def exports3 (env : Env) : HardhatConfig :=
  { solidity := "0.8.20"
    networks :=
      { hederaTestnet :=
          { url := some (orElse (env "HEDERA_RPC_URL") defaultRpcUrl)
            accounts := some [env "HEDERA_OPERATOR_KEY"] } } }

/-- Lines 43-46: the constant `accounts`.  The `&&` evaluates `startsWith`
only when the variable is truthy. -/
def accounts (env : Env) : Except Thrown (Option (List (Option String))) := do
  let key := env "HEDERA_OPERATOR_KEY"
  let cond ← if truthy key then startsWith key "0x" else pure false
  if cond then pure (some [key]) else pure none

/-- Lines 48-56: `url` with the default, `accounts` is the constant of
lines 43-46. -/
def exports4 (env : Env) (accounts : Option (List (Option String))) : HardhatConfig :=
  { solidity := "0.8.20"
    networks :=
      { hederaTestnet :=
          { url := some (orElse (env "HEDERA_RPC_URL") defaultRpcUrl)
            accounts := accounts } } }

/-- Evaluation of the module `hardhat.config.js` from top to bottom: the four
assignments to `module.exports` in order, the constant `accounts` between the
third and the fourth.  The result is what the module exports, or the value
thrown while loading it. -/
def hardhatConfig (env : Env) : Except Thrown HardhatConfig := do
  let mut moduleExports := exports1 env
  moduleExports := exports2 env
  moduleExports := exports3 env
  let accounts ← accounts env
  moduleExports := exports4 env accounts
  return moduleExports

/-! ## The remote layer and the observable events -/

/-- An argument handed to a remote call: `undefined`, a string, a fixed-point
integer (a `BigNumber`), or a boolean. -/
inductive Value where
  | undefined
  | str (s : String)
  | int (n : Int)
  | bool (b : Bool)
deriving DecidableEq, Repr

/-- The environment value `process.env.X` as an argument of a call. -/
def Value.ofEnv : Option String → Value
  | none => .undefined
  | some s => .str s

/-- An object handed back by the remote layer: a contract factory, a deployed
contract or a transaction response.  The script reads one property of such
an object, the `address` of a contract; every other use is a method call on
it, which is a further remote call. -/
structure Handle where
  address : String
deriving DecidableEq, Repr, Inhabited

/-- The calls `deploy.js` issues to the remote layer, each with the object it
is invoked on and its arguments: `ethers.getContractFactory(name)`,
`factory.deploy(...args)`, `contract.deployed()`, `contract.setVesting(vault)`,
`contract.setPrice(token, num, den, enabled)` and `tx.wait()`. -/
inductive Call where
  | getContractFactory (name : String)
  | deploy (factory : Handle) (args : List Value)
  | deployed (contract : Handle)
  | setVesting (contract : Handle) (vault : Value)
  | setPrice (contract : Handle) (token : Value) (num : Value) (den : Value) (enabled : Value)
  | wait (tx : Handle)
deriving DecidableEq, Repr

/-- The remote layer: given the calls served so far, oldest first, and the
call now issued, the awaited result (a handle) or the value thrown. -/
abbrev Remote := List Call → Call → Except Thrown Handle

/-- What a run does that is visible from outside, in the order it happens. -/
inductive Event where
  | call (c : Call)
  | log (args : List String)
  | error (e : Thrown)
  | exit (code : Nat)
deriving DecidableEq, Repr

/-- The remote calls among a list of events, in order. -/
def calls : List Event → List Call
  | [] => []
  | .call c :: es => c :: calls es
  | _ :: es => calls es

/-- The contract-level calls among a list of calls: the deployments and the
two setters. -/
def contractLevel : List Call → List Call
  | [] => []
  | .deploy f a :: cs => .deploy f a :: contractLevel cs
  | .setVesting s v :: cs => .setVesting s v :: contractLevel cs
  | .setPrice s t n d e :: cs => .setPrice s t n d e :: contractLevel cs
  | _ :: cs => contractLevel cs

/-- An asynchronous computation of the script: from the events so far to the
events so far extended, with the value it resolves to or the value it
rejects with. -/
def Script (α : Type) : Type := List Event → List Event × Except Thrown α

instance : Monad Script where
  pure a := fun tr => (tr, .ok a)
  bind x f := fun tr =>
    match x tr with
    | (tr1, .ok a) => f a tr1
    | (tr1, .error e) => (tr1, .error e)

/-- The statement `throw e`. -/
def throwJs {α : Type} (e : Thrown) : Script α := fun tr => (tr, .error e)

/-- An awaited call to the remote layer: the call is recorded, then the
remote layer answers it. -/
def remoteCall (R : Remote) (c : Call) : Script Handle := fun tr =>
  (tr ++ [.call c], R (calls tr) c)

/-- The statement `console.log(...args)`. -/
def consoleLog (args : List String) : Script Unit := fun tr =>
  (tr ++ [.log args], .ok ())

/-- A pure library computation that may throw. -/
def liftExcept {α : Type} (x : Except Thrown α) : Script α := fun tr => (tr, x)

/-! ## Library values used by `deploy.js` -/

/-- The decimal value of a list of digit characters, `none` when a character
is not a digit. -/
def digitsValue (cs : List Char) : Option Nat :=
  cs.foldl (fun acc c =>
    match acc with
    | none => none
    | some n => if c.isDigit then some (10 * n + (c.toNat - 48)) else none) (some 0)

/-- Modelled from the spec: `ethers.utils.parseUnits(value, decimals)`, a
function of the `ethers` library, which is not part of the repository.  The
spec (section 6, numeric encoding) has every quantity "scaled by 10^8 (8
decimal places)": a decimal literal `whole` or `whole.fraction`, with at most
`decimals` fraction digits, is the integer `whole * 10^decimals` plus the
fraction padded to `decimals` digits; any other string is rejected. -/
def parseUnits (value : String) (decimals : Nat) : Except Thrown Int :=
  match value.toList.splitOn '.' with
  | [whole] =>
      match digitsValue whole with
      | some w => if whole = [] then .error ⟨"Error", "invalid decimal value"⟩
                  else .ok (w * 10 ^ decimals : Nat)
      | none => .error ⟨"Error", "invalid decimal value"⟩
  | [whole, fraction] =>
      match digitsValue whole, digitsValue fraction with
      | some w, some f =>
          if whole = [] ∧ fraction = [] then .error ⟨"Error", "missing value"⟩
          else if fraction.length > decimals then
            .error ⟨"Error", "fractional component exceeds decimals"⟩
          else .ok (w * 10 ^ decimals + f * 10 ^ (decimals - fraction.length) : Nat)
      | _, _ => .error ⟨"Error", "invalid decimal value"⟩
  | _ => .error ⟨"Error", "too many decimal points"⟩

/-- Modelled from the spec: `ethers.constants.AddressZero`, a constant of the
`ethers` library: the zero address, which the sale contract reads as the
native-currency sentinel. -/
def AddressZero : String := "0x0000000000000000000000000000000000000000"

/-! ## `scripts/deploy.js` -/

/-- The function `main` of `deploy.js`, lines 4-24. -/
def main (env : Env) (R : Remote) : Script Unit := do
  let DTRA_TOKEN := env "DTRA_TOKEN"
  let TREASURY := env "TREASURY"
  if !truthy DTRA_TOKEN || !truthy TREASURY then
    throwJs ⟨"Error", "Set DTRA_TOKEN & TREASURY in .env"⟩
  else
    let Vault ← remoteCall R (.getContractFactory "DTRAVestingVault")
    let vault ← remoteCall R (.deploy Vault [.ofEnv DTRA_TOKEN])
    let _ ← remoteCall R (.deployed vault)
    consoleLog ["VestingVault:", vault.address]

    let cap ← liftExcept (parseUnits "10000000" 8)
    let Sale ← remoteCall R (.getContractFactory "DTRACrowdsale")
    let sale ← remoteCall R (.deploy Sale [.ofEnv DTRA_TOKEN, .ofEnv TREASURY, .int cap])
    let _ ← remoteCall R (.deployed sale)
    consoleLog ["Crowdsale:", sale.address]

    let tx1 ← remoteCall R (.setVesting sale (.str vault.address))
    let _ ← remoteCall R (.wait tx1)
    let num ← liftExcept (parseUnits "5" 8)
    let den ← liftExcept (parseUnits "1" 8)
    let tx2 ← remoteCall R (.setPrice sale (.str AddressZero) (.int num) (.int den) (.bool true))
    let _ ← remoteCall R (.wait tx2)
    consoleLog ["HBAR price set"]

/-- The outcome of a process: everything observable it did, and its exit
code. -/
structure Outcome where
  events : List Event
  exitCode : Nat
deriving DecidableEq, Repr

/-- Line 26, `main().catch((e) => ...)`, run as a process whose earlier
observable history is `tr`: when `main` resolves nothing more is done and the
process ends with the exit code 0 of a Node process that ran out of work;
when it rejects, the handler prints the reason with `console.error` and calls
`process.exit(1)`. -/
def deployScript (env : Env) (R : Remote) (tr : List Event) : Outcome :=
  match main env R tr with
  | (tr1, .ok _) => { events := tr1, exitCode := 0 }
  | (tr1, .error e) => { events := tr1 ++ [.error e, .exit 1], exitCode := 1 }

/-! ## Vocabulary of the statements

The definitions below are not code of the repository: they name the objects
the properties are stated with. -/

/-- The six objects a complete run receives from the remote layer and uses:
the two factories, the two contracts and the two transaction responses. -/
structure Handles where
  Vault : Handle
  vault : Handle
  Sale : Handle
  sale : Handle
  tx1 : Handle
  tx2 : Handle
deriving DecidableEq, Repr, Inhabited

/-- The ten remote calls of a complete run, in program order, for the
arguments `token` and `treasury` and the objects `H` received. -/
def successCalls (token treasury : Value) (H : Handles) : List Call :=
  [ .getContractFactory "DTRAVestingVault",
    .deploy H.Vault [token],
    .deployed H.vault,
    .getContractFactory "DTRACrowdsale",
    .deploy H.Sale [token, treasury, .int 1000000000000000],
    .deployed H.sale,
    .setVesting H.sale (.str H.vault.address),
    .wait H.tx1,
    .setPrice H.sale (.str AddressZero) (.int 500000000) (.int 100000000) (.bool true),
    .wait H.tx2 ]

/-- The thirteen events of a complete run, in program order: the ten remote
calls and the three `console.log` lines. -/
def successEvents (token treasury : Value) (H : Handles) : List Event :=
  [ .call (.getContractFactory "DTRAVestingVault"),
    .call (.deploy H.Vault [token]),
    .call (.deployed H.vault),
    .log ["VestingVault:", H.vault.address],
    .call (.getContractFactory "DTRACrowdsale"),
    .call (.deploy H.Sale [token, treasury, .int 1000000000000000]),
    .call (.deployed H.sale),
    .log ["Crowdsale:", H.sale.address],
    .call (.setVesting H.sale (.str H.vault.address)),
    .call (.wait H.tx1),
    .call (.setPrice H.sale (.str AddressZero) (.int 500000000) (.int 100000000) (.bool true)),
    .call (.wait H.tx2),
    .log ["HBAR price set"] ]

/-- The objects `H` are the ones the remote layer `R`, having served the calls
`h0` before, hands back to the calls of `successCalls` that return an object
the script uses. -/
def Answers (R : Remote) (h0 : List Call) (token treasury : Value) (H : Handles) : Prop :=
  R h0 (.getContractFactory "DTRAVestingVault") = .ok H.Vault ∧
  R (h0 ++ (successCalls token treasury H).take 1) (.deploy H.Vault [token]) = .ok H.vault ∧
  R (h0 ++ (successCalls token treasury H).take 3) (.getContractFactory "DTRACrowdsale")
    = .ok H.Sale ∧
  R (h0 ++ (successCalls token treasury H).take 4)
    (.deploy H.Sale [token, treasury, .int 1000000000000000]) = .ok H.sale ∧
  R (h0 ++ (successCalls token treasury H).take 6)
    (.setVesting H.sale (.str H.vault.address)) = .ok H.tx1 ∧
  R (h0 ++ (successCalls token treasury H).take 8)
    (.setPrice H.sale (.str AddressZero) (.int 500000000) (.int 100000000) (.bool true))
    = .ok H.tx2

/-- Every call of the list, issued in order to a remote layer that has served
`h` before, is answered with an object (none is rejected). -/
def answeredAll (R : Remote) : List Call → List Call → Prop
  | _, [] => True
  | h, c :: cs => (∃ v, R h c = .ok v) ∧ answeredAll R (h ++ [c]) cs

/-- Performing a list of events in order against a remote layer that has
served `h` before, stopping at the first call it rejects: the events
performed, and the rejection if there was one. -/
def perform (R : Remote) : List Call → List Event → List Event × Except Thrown Unit
  | _, [] => ([], .ok ())
  | h, .call c :: es =>
      match R h c with
      | .ok _ => ((.call c) :: (perform R (h ++ [c]) es).1, (perform R (h ++ [c]) es).2)
      | .error e => ([.call c], .error e)
  | h, ev :: es => (ev :: (perform R h es).1, (perform R h es).2)

/-- The object with which the remote layer answers a call, the default object
when it rejects the call. -/
def answer (R : Remote) (h : List Call) (c : Call) : Handle :=
  match R h c with
  | .ok v => v
  | .error _ => default

/-- The six objects of a run of `main` against the remote layer `R` that has
served `h0` before: each is the answer of `R` to the call that asks for it,
issued after the calls that precede it in program order. -/
def handlesOf (token treasury : Value) (R : Remote) (h0 : List Call) : Handles :=
  let c0 := Call.getContractFactory "DTRAVestingVault"
  let Vault := answer R h0 c0
  let c1 := Call.deploy Vault [token]
  let vault := answer R (h0 ++ [c0]) c1
  let c2 := Call.deployed vault
  let c3 := Call.getContractFactory "DTRACrowdsale"
  let Sale := answer R (h0 ++ [c0, c1, c2]) c3
  let c4 := Call.deploy Sale [token, treasury, .int 1000000000000000]
  let sale := answer R (h0 ++ [c0, c1, c2, c3]) c4
  let c5 := Call.deployed sale
  let c6 := Call.setVesting sale (.str vault.address)
  let tx1 := answer R (h0 ++ [c0, c1, c2, c3, c4, c5]) c6
  let c7 := Call.wait tx1
  let c8 := Call.setPrice sale (.str AddressZero) (.int 500000000) (.int 100000000) (.bool true)
  let tx2 := answer R (h0 ++ [c0, c1, c2, c3, c4, c5, c6, c7]) c8
  { Vault := Vault, vault := vault, Sale := Sale, sale := sale, tx1 := tx1, tx2 := tx2 }

/-- The remote layer assigns a fresh address to every deployment: the address
of the contract it hands back to a `deploy` differs from the address it
handed back to each earlier `deploy` of the history. -/
def FreshAddresses (R : Remote) : Prop :=
  ∀ (h : List Call) (j : Nat) (f f1 : Handle) (a a1 : List Value) (v v1 : Handle),
    h[j]? = some (.deploy f1 a1) → R (h.take j) (.deploy f1 a1) = .ok v1 →
    R h (.deploy f a) = .ok v → v.address ≠ v1.address

/-- Whether a call is a deployment. -/
def Call.isDeploy : Call → Bool
  | .deploy _ _ => true
  | _ => false

/-! ## Sample inputs -/

/-- An environment with both addresses and nothing else. -/
def sampleEnv : Env := fun v =>
  if v = "DTRA_TOKEN" then some "0xT" else if v = "TREASURY" then some "0xR" else none

/-- An environment without any variable. -/
def emptyEnv : Env := fun _ => none

/-- An environment whose `HEDERA_RPC_URL` is set to the empty string. -/
def emptyUrlEnv : Env := fun v => if v = "HEDERA_RPC_URL" then some "" else none

/-- An environment with a credential that lacks the `0x` opening. -/
def malformedKeyEnv : Env := fun v => if v = "HEDERA_OPERATOR_KEY" then some "302e0201" else none

/-- An environment with a well-formed credential and an endpoint. -/
def signedEnv : Env := fun v =>
  if v = "HEDERA_OPERATOR_KEY" then some "0xabc"
  else if v = "HEDERA_RPC_URL" then some "https://rpc.example" else none

/-- The environment `signedEnv` with a `PRIVATE_KEY` added. -/
def signedEnvWithPrivateKey : Env := fun v =>
  if v = "PRIVATE_KEY" then some "0xdef" else signedEnv v

/-- A remote layer that answers every call, the address of the object it hands
back spelling the number of calls served before. -/
def countingRemote : Remote := fun h _ => .ok ⟨String.mk (List.replicate h.length (Char.ofNat 97))⟩

/-- A remote layer that answers every call with the same object. -/
def constantRemote : Remote := fun _ _ => .ok ⟨"0xC"⟩

/-- The remote layer `constantRemote` made to reject the call it receives
after `n` calls. -/
def failingAfter (n : Nat) : Remote := fun h _ =>
  if h.length = n then .error ⟨"Error", "reverted"⟩ else .ok ⟨"0xC"⟩

/-- A toolchain that builds, from a configuration without signing credential,
a remote layer that rejects its first call, and from any other configuration
one that answers every call. -/
def signerlessHardhat : HardhatConfig → Remote := fun cfg =>
  match cfg.networks.hederaTestnet.accounts with
  | none => failingAfter 0
  | some _ => constantRemote

/-! ## The network configuration resolver -/

/-- The module never throws: what it exports is the fourth object literal,
built from the constant `accounts`, which is the one-element array of the
credential when the credential opens with `0x` and `undefined` otherwise. -/
theorem hardhatConfig_eq (env : Env) :
    hardhatConfig env = .ok (exports4 env
      (match env "HEDERA_OPERATOR_KEY" with
       | some k => if "0x".toList.isPrefixOf k.toList then some [some k] else none
       | none => none)) := by
  unfold hardhatConfig accounts
  cases hk : env "HEDERA_OPERATOR_KEY" with
  | none => rfl
  | some k =>
    by_cases hne : k = ""
    · subst hne
      rfl
    · cases hp : "0x".toList.isPrefixOf k.toList <;>
        simp only [truthy, startsWith, hne, hp, bind, Except.bind, pure, Except.pure,
          bne_iff_ne, ne_eq, not_false_eq_true, decide_True, if_true, Bool.false_eq_true,
          if_false]

/-- C4: when the credential `HEDERA_OPERATOR_KEY` is unset, empty, or any
string that does not open with `0x`, loading the configuration raises no error
and the `accounts` of `networks.hederaTestnet` are `undefined`, so the
malformed string is nowhere in them. -/
theorem malformed_credential_is_absent (env : Env)
    (h : ∀ s, env "HEDERA_OPERATOR_KEY" = some s → ¬ ("0x".toList <+: s.toList)) :
    ∃ cfg, hardhatConfig env = .ok cfg ∧ cfg.networks.hederaTestnet.accounts = none := by
  refine ⟨_, hardhatConfig_eq env, ?_⟩
  cases hk : env "HEDERA_OPERATOR_KEY" with
  | none => rfl
  | some k =>
    have hp : "0x".toList.isPrefixOf k.toList = false := by
      rw [Bool.eq_false_iff]
      intro hc
      exact h k hk (List.isPrefixOf_iff_prefix.mp hc)
    simp only [exports4, hp, Bool.false_eq_true, if_false]

/-- C4, at the credential `302e0201`: the exported `accounts` are
`undefined`. -/
theorem malformed_credential_is_absent_witness :
    ∃ cfg, hardhatConfig malformedKeyEnv = .ok cfg ∧
      cfg.networks.hederaTestnet.accounts = none :=
  malformed_credential_is_absent malformedKeyEnv (by
    intro s hs
    have : s = "302e0201" := by
      simp [malformedKeyEnv] at hs
      exact hs.symm
    subst this
    decide)

/-- C6, as stated, fails at an environment whose `HEDERA_RPC_URL` is set to
the empty string: the variable is set, yet the resolved endpoint is the public
test endpoint and not the value of the variable. -/
theorem url_of_empty_variable_is_default :
    emptyUrlEnv "HEDERA_RPC_URL" = some "" ∧
    (hardhatConfig emptyUrlEnv).map (fun cfg => cfg.networks.hederaTestnet.url)
      = .ok (some "https://testnet.hashio.io/api") :=
  ⟨rfl, rfl⟩

/-- C6, amended: the endpoint of the resolved profile is the value of
`HEDERA_RPC_URL` when that variable is set and not empty, the public test
endpoint `https://testnet.hashio.io/api` when it is unset or empty, and is
never absent. -/
theorem resolved_url (env : Env) :
    ∃ cfg, hardhatConfig env = .ok cfg ∧
      (∀ u, env "HEDERA_RPC_URL" = some u → u ≠ "" →
        cfg.networks.hederaTestnet.url = some u) ∧
      (env "HEDERA_RPC_URL" = none ∨ env "HEDERA_RPC_URL" = some "" →
        cfg.networks.hederaTestnet.url = some "https://testnet.hashio.io/api") ∧
      cfg.networks.hederaTestnet.url ≠ none := by
  refine ⟨_, hardhatConfig_eq env, ?_, ?_, ?_⟩
  · intro u hu hne
    simp [exports4, orElse, truthy, hu, hne]
  · rintro (hu | hu) <;> simp [exports4, orElse, truthy, hu, defaultRpcUrl]
  · simp [exports4]

/-- C6, amended, at an environment whose `HEDERA_RPC_URL` is
`https://rpc.example`: that value is the resolved endpoint. -/
theorem resolved_url_witness :
    ∃ cfg, hardhatConfig signedEnv = .ok cfg ∧
      cfg.networks.hederaTestnet.url = some "https://rpc.example" := by
  obtain ⟨cfg, hcfg, hset, _, _⟩ := resolved_url signedEnv
  exact ⟨cfg, hcfg, hset "https://rpc.example" (by decide) (by decide)⟩

/-- C10: the exported configuration is the object of the fourth assignment to
`module.exports`; two environments that agree on `HEDERA_RPC_URL` and on
`HEDERA_OPERATOR_KEY` export the same configuration, whatever `PRIVATE_KEY`
or any other variable is; and the `accounts` are the one-element array of
`HEDERA_OPERATOR_KEY` exactly when that variable is set and opens with `0x`,
and `undefined` otherwise. -/
theorem exported_config_is_fourth_assignment (env env1 : Env)
    (hu : env "HEDERA_RPC_URL" = env1 "HEDERA_RPC_URL")
    (hk : env "HEDERA_OPERATOR_KEY" = env1 "HEDERA_OPERATOR_KEY") :
    hardhatConfig env = hardhatConfig env1 ∧
    ∃ a cfg, accounts env = .ok a ∧ hardhatConfig env = .ok cfg ∧ cfg = exports4 env a ∧
      ((∃ k, env "HEDERA_OPERATOR_KEY" = some k ∧ "0x".toList <+: k.toList) ↔
        cfg.networks.hederaTestnet.accounts = some [env "HEDERA_OPERATOR_KEY"]) ∧
      ((¬ ∃ k, env "HEDERA_OPERATOR_KEY" = some k ∧ "0x".toList <+: k.toList) →
        cfg.networks.hederaTestnet.accounts = none) := by
  constructor
  · rw [hardhatConfig_eq, hardhatConfig_eq, hk]
    simp only [exports4, hu]
  · have hacc : accounts env = .ok
        (match env "HEDERA_OPERATOR_KEY" with
         | some k => if "0x".toList.isPrefixOf k.toList then some [some k] else none
         | none => none) := by
      unfold accounts
      cases hkey : env "HEDERA_OPERATOR_KEY" with
      | none => rfl
      | some k =>
        by_cases hne : k = ""
        · subst hne
          rfl
        · cases hp : "0x".toList.isPrefixOf k.toList <;>
            simp only [truthy, startsWith, hne, hp, bind, Except.bind, pure, Except.pure,
              bne_iff_ne, ne_eq, not_false_eq_true, decide_True, if_true, Bool.false_eq_true,
              if_false]
    refine ⟨_, _, hacc, hardhatConfig_eq env, rfl, ?_, ?_⟩
    · cases hkey : env "HEDERA_OPERATOR_KEY" with
      | none => simp [exports4]
      | some k =>
        by_cases hp : "0x".toList <+: k.toList
        · have hb : "0x".toList.isPrefixOf k.toList = true := List.isPrefixOf_iff_prefix.mpr hp
          simp only [exports4, hb, if_true, iff_true]
          exact ⟨k, rfl, hp⟩
        · have hb : "0x".toList.isPrefixOf k.toList = false := by
            rw [Bool.eq_false_iff]
            exact fun hc => hp (List.isPrefixOf_iff_prefix.mp hc)
          simp only [exports4, hb, Bool.false_eq_true, if_false]
          constructor
          · rintro ⟨k1, hk1, hp1⟩
            cases hk1
            exact absurd hp1 hp
          · intro hc
            cases hc
    · intro hno
      cases hkey : env "HEDERA_OPERATOR_KEY" with
      | none => simp [exports4]
      | some k =>
        have hb : "0x".toList.isPrefixOf k.toList = false := by
          rw [Bool.eq_false_iff]
          exact fun hc => hno ⟨k, hkey, List.isPrefixOf_iff_prefix.mp hc⟩
        simp only [exports4, hb, Bool.false_eq_true, if_false]

/-- C10, at two environments that differ in `PRIVATE_KEY` only: they export
the same configuration. -/
theorem exported_config_is_fourth_assignment_witness :
    hardhatConfig signedEnv = hardhatConfig signedEnvWithPrivateKey :=
  (exported_config_is_fourth_assignment signedEnv signedEnvWithPrivateKey rfl rfl).1

/-! ## The deployment orchestrator: evaluation lemmas -/

theorem bind_apply {α β : Type} (x : Script α) (f : α → Script β) (tr : List Event) :
    (x >>= f) tr =
      match x tr with
      | (tr1, .ok a) => f a tr1
      | (tr1, .error e) => (tr1, .error e) := rfl

theorem liftExcept_ok_bind {α β : Type} (a : α) (f : α → Script β) :
    (liftExcept (.ok a) >>= f) = f a := by
  funext tr
  simp [bind_apply, liftExcept]

@[simp] theorem calls_append (xs ys : List Event) : calls (xs ++ ys) = calls xs ++ calls ys := by
  induction xs with
  | nil => rfl
  | cons x xs ih => cases x <;> simp [calls, ih]

theorem parseUnits_cap : parseUnits "10000000" 8 = .ok 1000000000000000 := by rfl

theorem parseUnits_num : parseUnits "5" 8 = .ok 500000000 := by rfl

theorem parseUnits_den : parseUnits "1" 8 = .ok 100000000 := by rfl

theorem calls_successEvents (t r : Value) (H : Handles) :
    calls (successEvents t r H) = successCalls t r H := rfl

theorem truthy_of_some {v : Option String} {s : String} (h : v = some s) (hs : s ≠ "") :
    truthy v = true := by
  subst h
  simp [truthy, hs]

theorem ofEnv_of_some {v : Option String} {s : String} (h : v = some s) :
    Value.ofEnv v = .str s := by
  subst h
  rfl

/-- With a missing or empty address `main` throws at once. -/
theorem main_falsy (env : Env) (R : Remote) (tr : List Event)
    (h : truthy (env "DTRA_TOKEN") = false ∨ truthy (env "TREASURY") = false) :
    main env R tr = (tr, .error ⟨"Error", "Set DTRA_TOKEN & TREASURY in .env"⟩) := by
  rcases h with h | h
  · simp [main, h, throwJs]
  · simp [main, h, throwJs]

/-- With both addresses present `main` is its straight-line body, the three
fixed-point constants evaluated. -/
theorem main_truthy (env : Env) (R : Remote) (ht : truthy (env "DTRA_TOKEN") = true)
    (hr : truthy (env "TREASURY") = true) :
    main env R = (do
      let Vault ← remoteCall R (.getContractFactory "DTRAVestingVault")
      let vault ← remoteCall R (.deploy Vault [.ofEnv (env "DTRA_TOKEN")])
      let _ ← remoteCall R (.deployed vault)
      consoleLog ["VestingVault:", vault.address]
      let Sale ← remoteCall R (.getContractFactory "DTRACrowdsale")
      let sale ← remoteCall R
        (.deploy Sale [.ofEnv (env "DTRA_TOKEN"), .ofEnv (env "TREASURY"), .int 1000000000000000])
      let _ ← remoteCall R (.deployed sale)
      consoleLog ["Crowdsale:", sale.address]
      let tx1 ← remoteCall R (.setVesting sale (.str vault.address))
      let _ ← remoteCall R (.wait tx1)
      let tx2 ← remoteCall R
        (.setPrice sale (.str AddressZero) (.int 500000000) (.int 100000000) (.bool true))
      let _ ← remoteCall R (.wait tx2)
      consoleLog ["HBAR price set"]) := by
  simp only [main, ht, hr, parseUnits_cap, parseUnits_num, parseUnits_den, liftExcept_ok_bind]
  simp

/-- With both addresses present, a run of `main` performs the events of a
complete run in order until the remote layer rejects a call. -/
theorem main_normal (env : Env) (R : Remote) (tr : List Event)
    (ht : truthy (env "DTRA_TOKEN") = true) (hr : truthy (env "TREASURY") = true) :
    ∃ H : Handles,
      main env R tr =
        (tr ++ (perform R (calls tr)
            (successEvents (.ofEnv (env "DTRA_TOKEN")) (.ofEnv (env "TREASURY")) H)).1,
          (perform R (calls tr)
            (successEvents (.ofEnv (env "DTRA_TOKEN")) (.ofEnv (env "TREASURY")) H)).2) := by
  rw [main_truthy env R ht hr]
  generalize Value.ofEnv (env "DTRA_TOKEN") = t
  generalize Value.ofEnv (env "TREASURY") = r
  cases h0 : R (calls tr) (Call.getContractFactory "DTRAVestingVault") with
  | error e =>
    refine ⟨⟨default, default, default, default, default, default⟩, ?_⟩
    simp [bind_apply, remoteCall, consoleLog, perform, successEvents, calls,
      h0]
  | ok Vault =>
    cases h1 : R (calls tr ++ [Call.getContractFactory "DTRAVestingVault"]) (Call.deploy Vault [t]) with
    | error e =>
      refine ⟨⟨Vault, default, default, default, default, default⟩, ?_⟩
      simp [bind_apply, remoteCall, consoleLog, perform, successEvents, calls,
        h0, h1]
    | ok vault =>
      cases h2 : R (calls tr ++ [Call.getContractFactory "DTRAVestingVault", Call.deploy Vault [t]]) (Call.deployed vault) with
      | error e =>
        refine ⟨⟨Vault, vault, default, default, default, default⟩, ?_⟩
        simp [bind_apply, remoteCall, consoleLog, perform, successEvents, calls,
          h0, h1, h2]
      | ok d1 =>
        cases h3 : R (calls tr ++ [Call.getContractFactory "DTRAVestingVault", Call.deploy Vault [t], Call.deployed vault]) (Call.getContractFactory "DTRACrowdsale") with
        | error e =>
          refine ⟨⟨Vault, vault, default, default, default, default⟩, ?_⟩
          simp [bind_apply, remoteCall, consoleLog, perform, successEvents, calls,
            h0, h1, h2, h3]
        | ok Sale =>
          cases h4 : R (calls tr ++ [Call.getContractFactory "DTRAVestingVault", Call.deploy Vault [t], Call.deployed vault, Call.getContractFactory "DTRACrowdsale"]) (Call.deploy Sale [t, r, .int 1000000000000000]) with
          | error e =>
            refine ⟨⟨Vault, vault, Sale, default, default, default⟩, ?_⟩
            simp [bind_apply, remoteCall, consoleLog, perform, successEvents, calls,
              h0, h1, h2, h3, h4]
          | ok sale =>
            cases h5 : R (calls tr ++ [Call.getContractFactory "DTRAVestingVault", Call.deploy Vault [t], Call.deployed vault, Call.getContractFactory "DTRACrowdsale", Call.deploy Sale [t, r, .int 1000000000000000]]) (Call.deployed sale) with
            | error e =>
              refine ⟨⟨Vault, vault, Sale, sale, default, default⟩, ?_⟩
              simp [bind_apply, remoteCall, consoleLog, perform, successEvents, calls,
                h0, h1, h2, h3, h4, h5]
            | ok d2 =>
              cases h6 : R (calls tr ++ [Call.getContractFactory "DTRAVestingVault", Call.deploy Vault [t], Call.deployed vault, Call.getContractFactory "DTRACrowdsale", Call.deploy Sale [t, r, .int 1000000000000000], Call.deployed sale]) (Call.setVesting sale (.str vault.address)) with
              | error e =>
                refine ⟨⟨Vault, vault, Sale, sale, default, default⟩, ?_⟩
                simp [bind_apply, remoteCall, consoleLog, perform, successEvents, calls,
                  h0, h1, h2, h3, h4, h5, h6]
              | ok tx1 =>
                cases h7 : R (calls tr ++ [Call.getContractFactory "DTRAVestingVault", Call.deploy Vault [t], Call.deployed vault, Call.getContractFactory "DTRACrowdsale", Call.deploy Sale [t, r, .int 1000000000000000], Call.deployed sale, Call.setVesting sale (.str vault.address)]) (Call.wait tx1) with
                | error e =>
                  refine ⟨⟨Vault, vault, Sale, sale, tx1, default⟩, ?_⟩
                  simp [bind_apply, remoteCall, consoleLog, perform, successEvents, calls,
                    h0, h1, h2, h3, h4, h5, h6, h7]
                | ok w1 =>
                  cases h8 : R (calls tr ++ [Call.getContractFactory "DTRAVestingVault", Call.deploy Vault [t], Call.deployed vault, Call.getContractFactory "DTRACrowdsale", Call.deploy Sale [t, r, .int 1000000000000000], Call.deployed sale, Call.setVesting sale (.str vault.address), Call.wait tx1]) (Call.setPrice sale (.str AddressZero) (.int 500000000) (.int 100000000) (.bool true)) with
                  | error e =>
                    refine ⟨⟨Vault, vault, Sale, sale, tx1, default⟩, ?_⟩
                    simp [bind_apply, remoteCall, consoleLog, perform, successEvents, calls,
                      h0, h1, h2, h3, h4, h5, h6, h7, h8]
                  | ok tx2 =>
                    cases h9 : R (calls tr ++ [Call.getContractFactory "DTRAVestingVault", Call.deploy Vault [t], Call.deployed vault, Call.getContractFactory "DTRACrowdsale", Call.deploy Sale [t, r, .int 1000000000000000], Call.deployed sale, Call.setVesting sale (.str vault.address), Call.wait tx1, Call.setPrice sale (.str AddressZero) (.int 500000000) (.int 100000000) (.bool true)]) (Call.wait tx2) with
                    | error e =>
                      refine ⟨⟨Vault, vault, Sale, sale, tx1, tx2⟩, ?_⟩
                      simp [bind_apply, remoteCall, consoleLog, perform, successEvents, calls,
                        h0, h1, h2, h3, h4, h5, h6, h7, h8, h9]
                    | ok w2 =>
                      refine ⟨⟨Vault, vault, Sale, sale, tx1, tx2⟩, ?_⟩
                      simp [bind_apply, remoteCall, consoleLog, perform, successEvents, calls,
                        h0, h1, h2, h3, h4, h5, h6, h7, h8, h9]

/-- With both addresses present and a remote layer that answers every call,
a run of `main` is complete. -/
theorem main_success (env : Env) (R : Remote) (tr : List Event)
    (ht : truthy (env "DTRA_TOKEN") = true) (hr : truthy (env "TREASURY") = true)
    (hR : ∀ h c, ∃ v, R h c = .ok v) :
    ∃ H : Handles,
      Answers R (calls tr) (.ofEnv (env "DTRA_TOKEN")) (.ofEnv (env "TREASURY")) H ∧
      main env R tr =
        (tr ++ successEvents (.ofEnv (env "DTRA_TOKEN")) (.ofEnv (env "TREASURY")) H, .ok ()) := by
  rw [main_truthy env R ht hr]
  generalize Value.ofEnv (env "DTRA_TOKEN") = t
  generalize Value.ofEnv (env "TREASURY") = r
  obtain ⟨Vault, h0⟩ := hR (calls tr) (Call.getContractFactory "DTRAVestingVault")
  obtain ⟨vault, h1⟩ := hR (calls tr ++ [Call.getContractFactory "DTRAVestingVault"]) (Call.deploy Vault [t])
  obtain ⟨d1, h2⟩ := hR (calls tr ++ [Call.getContractFactory "DTRAVestingVault", Call.deploy Vault [t]]) (Call.deployed vault)
  obtain ⟨Sale, h3⟩ := hR (calls tr ++ [Call.getContractFactory "DTRAVestingVault", Call.deploy Vault [t], Call.deployed vault]) (Call.getContractFactory "DTRACrowdsale")
  obtain ⟨sale, h4⟩ := hR (calls tr ++ [Call.getContractFactory "DTRAVestingVault", Call.deploy Vault [t], Call.deployed vault, Call.getContractFactory "DTRACrowdsale"]) (Call.deploy Sale [t, r, .int 1000000000000000])
  obtain ⟨d2, h5⟩ := hR (calls tr ++ [Call.getContractFactory "DTRAVestingVault", Call.deploy Vault [t], Call.deployed vault, Call.getContractFactory "DTRACrowdsale", Call.deploy Sale [t, r, .int 1000000000000000]]) (Call.deployed sale)
  obtain ⟨tx1, h6⟩ := hR (calls tr ++ [Call.getContractFactory "DTRAVestingVault", Call.deploy Vault [t], Call.deployed vault, Call.getContractFactory "DTRACrowdsale", Call.deploy Sale [t, r, .int 1000000000000000], Call.deployed sale]) (Call.setVesting sale (.str vault.address))
  obtain ⟨w1, h7⟩ := hR (calls tr ++ [Call.getContractFactory "DTRAVestingVault", Call.deploy Vault [t], Call.deployed vault, Call.getContractFactory "DTRACrowdsale", Call.deploy Sale [t, r, .int 1000000000000000], Call.deployed sale, Call.setVesting sale (.str vault.address)]) (Call.wait tx1)
  obtain ⟨tx2, h8⟩ := hR (calls tr ++ [Call.getContractFactory "DTRAVestingVault", Call.deploy Vault [t], Call.deployed vault, Call.getContractFactory "DTRACrowdsale", Call.deploy Sale [t, r, .int 1000000000000000], Call.deployed sale, Call.setVesting sale (.str vault.address), Call.wait tx1]) (Call.setPrice sale (.str AddressZero) (.int 500000000) (.int 100000000) (.bool true))
  obtain ⟨w2, h9⟩ := hR (calls tr ++ [Call.getContractFactory "DTRAVestingVault", Call.deploy Vault [t], Call.deployed vault, Call.getContractFactory "DTRACrowdsale", Call.deploy Sale [t, r, .int 1000000000000000], Call.deployed sale, Call.setVesting sale (.str vault.address), Call.wait tx1, Call.setPrice sale (.str AddressZero) (.int 500000000) (.int 100000000) (.bool true)]) (Call.wait tx2)
  refine ⟨⟨Vault, vault, Sale, sale, tx1, tx2⟩, ?_, ?_⟩
  · simp only [Answers, successCalls, List.take]
    exact ⟨h0, h1, h3, h4, h6, h8⟩
  · simp [bind_apply, remoteCall, consoleLog, successEvents, calls,
      h0, h1, h2, h3, h4, h5, h6, h7, h8, h9]

/-- With both addresses present, a run of `main` performs the events of a
complete run, built from the answers of the remote layer, in order until the
remote layer rejects a call. -/
theorem main_run (env : Env) (R : Remote) (tr : List Event)
    (ht : truthy (env "DTRA_TOKEN") = true) (hr : truthy (env "TREASURY") = true) :
    main env R tr =
      (tr ++ (perform R (calls tr)
          (successEvents (.ofEnv (env "DTRA_TOKEN")) (.ofEnv (env "TREASURY"))
            (handlesOf (.ofEnv (env "DTRA_TOKEN")) (.ofEnv (env "TREASURY")) R (calls tr)))).1,
        (perform R (calls tr)
          (successEvents (.ofEnv (env "DTRA_TOKEN")) (.ofEnv (env "TREASURY"))
            (handlesOf (.ofEnv (env "DTRA_TOKEN")) (.ofEnv (env "TREASURY")) R (calls tr)))).2) := by
  rw [main_truthy env R ht hr]
  generalize Value.ofEnv (env "DTRA_TOKEN") = t
  generalize Value.ofEnv (env "TREASURY") = r
  cases h0 : R (calls tr) (Call.getContractFactory "DTRAVestingVault") with
  | error e =>
    simp [bind_apply, remoteCall, consoleLog, perform, successEvents, handlesOf, answer,
      calls, h0]
  | ok Vault =>
    cases h1 : R (calls tr ++ [Call.getContractFactory "DTRAVestingVault"]) (Call.deploy Vault [t]) with
    | error e =>
      simp [bind_apply, remoteCall, consoleLog, perform, successEvents, handlesOf, answer,
        calls, h0, h1]
    | ok vault =>
      cases h2 : R (calls tr ++ [Call.getContractFactory "DTRAVestingVault", Call.deploy Vault [t]]) (Call.deployed vault) with
      | error e =>
        simp [bind_apply, remoteCall, consoleLog, perform, successEvents, handlesOf, answer,
          calls, h0, h1, h2]
      | ok d1 =>
        cases h3 : R (calls tr ++ [Call.getContractFactory "DTRAVestingVault", Call.deploy Vault [t], Call.deployed vault]) (Call.getContractFactory "DTRACrowdsale") with
        | error e =>
          simp [bind_apply, remoteCall, consoleLog, perform, successEvents, handlesOf, answer,
            calls, h0, h1, h2, h3]
        | ok Sale =>
          cases h4 : R (calls tr ++ [Call.getContractFactory "DTRAVestingVault", Call.deploy Vault [t], Call.deployed vault, Call.getContractFactory "DTRACrowdsale"]) (Call.deploy Sale [t, r, .int 1000000000000000]) with
          | error e =>
            simp [bind_apply, remoteCall, consoleLog, perform, successEvents, handlesOf, answer,
              calls, h0, h1, h2, h3, h4]
          | ok sale =>
            cases h5 : R (calls tr ++ [Call.getContractFactory "DTRAVestingVault", Call.deploy Vault [t], Call.deployed vault, Call.getContractFactory "DTRACrowdsale", Call.deploy Sale [t, r, .int 1000000000000000]]) (Call.deployed sale) with
            | error e =>
              simp [bind_apply, remoteCall, consoleLog, perform, successEvents, handlesOf, answer,
                calls, h0, h1, h2, h3, h4, h5]
            | ok d2 =>
              cases h6 : R (calls tr ++ [Call.getContractFactory "DTRAVestingVault", Call.deploy Vault [t], Call.deployed vault, Call.getContractFactory "DTRACrowdsale", Call.deploy Sale [t, r, .int 1000000000000000], Call.deployed sale]) (Call.setVesting sale (.str vault.address)) with
              | error e =>
                simp [bind_apply, remoteCall, consoleLog, perform, successEvents, handlesOf, answer,
                  calls, h0, h1, h2, h3, h4, h5, h6]
              | ok tx1 =>
                cases h7 : R (calls tr ++ [Call.getContractFactory "DTRAVestingVault", Call.deploy Vault [t], Call.deployed vault, Call.getContractFactory "DTRACrowdsale", Call.deploy Sale [t, r, .int 1000000000000000], Call.deployed sale, Call.setVesting sale (.str vault.address)]) (Call.wait tx1) with
                | error e =>
                  simp [bind_apply, remoteCall, consoleLog, perform, successEvents, handlesOf, answer,
                    calls, h0, h1, h2, h3, h4, h5, h6, h7]
                | ok w1 =>
                  cases h8 : R (calls tr ++ [Call.getContractFactory "DTRAVestingVault", Call.deploy Vault [t], Call.deployed vault, Call.getContractFactory "DTRACrowdsale", Call.deploy Sale [t, r, .int 1000000000000000], Call.deployed sale, Call.setVesting sale (.str vault.address), Call.wait tx1]) (Call.setPrice sale (.str AddressZero) (.int 500000000) (.int 100000000) (.bool true)) with
                  | error e =>
                    simp [bind_apply, remoteCall, consoleLog, perform, successEvents, handlesOf, answer,
                      calls, h0, h1, h2, h3, h4, h5, h6, h7, h8]
                  | ok tx2 =>
                    cases h9 : R (calls tr ++ [Call.getContractFactory "DTRAVestingVault", Call.deploy Vault [t], Call.deployed vault, Call.getContractFactory "DTRACrowdsale", Call.deploy Sale [t, r, .int 1000000000000000], Call.deployed sale, Call.setVesting sale (.str vault.address), Call.wait tx1, Call.setPrice sale (.str AddressZero) (.int 500000000) (.int 100000000) (.bool true)]) (Call.wait tx2) with
                    | error e =>
                      simp [bind_apply, remoteCall, consoleLog, perform, successEvents, handlesOf, answer,
                        calls, h0, h1, h2, h3, h4, h5, h6, h7, h8, h9]
                    | ok w2 =>
                      simp [bind_apply, remoteCall, consoleLog, perform, successEvents, handlesOf, answer,
                        calls, h0, h1, h2, h3, h4, h5, h6, h7, h8, h9]

/-! ## Generic facts about `perform` -/

theorem perform_take (R : Remote) (E : List Event) :
    ∀ h, ∃ n, n ≤ E.length ∧ (perform R h E).1 = E.take n := by
  induction E with
  | nil => exact fun _ => ⟨0, le_refl _, rfl⟩
  | cons ev es ih =>
    intro h
    cases ev with
    | call c =>
      cases hc : R h c with
      | error e => exact ⟨1, by simp, by simp [perform, hc]⟩
      | ok v =>
        obtain ⟨n, hn, hp⟩ := ih (h ++ [c])
        exact ⟨n + 1, by simpa using hn, by simp [perform, hc, hp]⟩
    | log a =>
      obtain ⟨n, hn, hp⟩ := ih h
      exact ⟨n + 1, by simpa using hn, by simp [perform, hp]⟩
    | error e =>
      obtain ⟨n, hn, hp⟩ := ih h
      exact ⟨n + 1, by simpa using hn, by simp [perform, hp]⟩
    | exit k =>
      obtain ⟨n, hn, hp⟩ := ih h
      exact ⟨n + 1, by simpa using hn, by simp [perform, hp]⟩

theorem calls_dropLast_cons_call (c : Call) (p : List Event) (R : Remote) (h : List Call)
    (hc : ∃ v, R h c = .ok v)
    (hp : answeredAll R (h ++ [c]) (calls p.dropLast)) :
    answeredAll R h (calls (Event.call c :: p).dropLast) := by
  cases p with
  | nil => simp [calls, answeredAll]
  | cons q qs =>
    simp only [List.dropLast_cons₂, calls, answeredAll]
    exact ⟨hc, hp⟩

theorem perform_answered (R : Remote) (E : List Event) :
    ∀ h, answeredAll R h (calls (perform R h E).1.dropLast) := by
  induction E with
  | nil => intro h; simp [perform, calls, answeredAll]
  | cons ev es ih =>
    intro h
    cases ev with
    | call c =>
      cases hc : R h c with
      | error e => simp [perform, hc, calls, answeredAll]
      | ok v =>
        simp only [perform, hc]
        exact calls_dropLast_cons_call c _ R h ⟨v, hc⟩ (ih (h ++ [c]))
    | log a =>
      simp only [perform]
      cases hp : (perform R h es).1 with
      | nil => simp [calls, answeredAll]
      | cons q qs =>
        have := ih h
        rw [hp] at this
        simpa [calls] using this
    | error e =>
      simp only [perform]
      cases hp : (perform R h es).1 with
      | nil => simp [calls, answeredAll]
      | cons q qs =>
        have := ih h
        rw [hp] at this
        simpa [calls] using this
    | exit k =>
      simp only [perform]
      cases hp : (perform R h es).1 with
      | nil => simp [calls, answeredAll]
      | cons q qs =>
        have := ih h
        rw [hp] at this
        simpa [calls] using this

theorem perform_ok (R : Remote) (E : List Event) :
    ∀ h, (perform R h E).2 = .ok () → (perform R h E).1 = E ∧ answeredAll R h (calls E) := by
  induction E with
  | nil => intro h _; simp [perform, calls, answeredAll]
  | cons ev es ih =>
    intro h
    cases ev with
    | call c =>
      cases hc : R h c with
      | error e => simp [perform, hc]
      | ok v =>
        simp only [perform, hc, calls, answeredAll]
        intro hok
        obtain ⟨h1, h2⟩ := ih (h ++ [c]) hok
        exact ⟨by rw [h1], ⟨v, rfl⟩, h2⟩
    | log a =>
      simp only [perform, calls]
      intro hok
      obtain ⟨h1, h2⟩ := ih h hok
      exact ⟨by rw [h1], h2⟩
    | error e =>
      simp only [perform, calls]
      intro hok
      obtain ⟨h1, h2⟩ := ih h hok
      exact ⟨by rw [h1], h2⟩
    | exit k =>
      simp only [perform, calls]
      intro hok
      obtain ⟨h1, h2⟩ := ih h hok
      exact ⟨by rw [h1], h2⟩

theorem perform_of_answered (R : Remote) (E : List Event) :
    ∀ h, answeredAll R h (calls E) → perform R h E = (E, .ok ()) := by
  induction E with
  | nil => intro h _; rfl
  | cons ev es ih =>
    intro h
    cases ev with
    | call c =>
      simp only [calls, answeredAll]
      rintro ⟨⟨v, hv⟩, hrest⟩
      simp [perform, hv, ih (h ++ [c]) hrest]
    | log a =>
      simp only [calls]
      intro hrest
      simp [perform, ih h hrest]
    | error e =>
      simp only [calls]
      intro hrest
      simp [perform, ih h hrest]
    | exit k =>
      simp only [calls]
      intro hrest
      simp [perform, ih h hrest]

theorem perform_error (R : Remote) (E : List Event) :
    ∀ h e, (perform R h E).2 = .error e →
      ∃ pre c, (perform R h E).1 = pre ++ [.call c] ∧ R (h ++ calls pre) c = .error e := by
  induction E with
  | nil => intro h e he; simp [perform] at he
  | cons ev es ih =>
    intro h e
    cases ev with
    | call c =>
      cases hc : R h c with
      | error e1 =>
        simp only [perform, hc]
        intro he
        cases he
        exact ⟨[], c, rfl, by simpa [calls] using hc⟩
      | ok v =>
        simp only [perform, hc]
        intro he
        obtain ⟨pre, c1, h1, h2⟩ := ih (h ++ [c]) e he
        exact ⟨.call c :: pre, c1, by simp [h1], by simpa [calls] using h2⟩
    | log a =>
      simp only [perform]
      intro he
      obtain ⟨pre, c1, h1, h2⟩ := ih h e he
      exact ⟨.log a :: pre, c1, by simp [h1], by simpa [calls] using h2⟩
    | error e0 =>
      simp only [perform]
      intro he
      obtain ⟨pre, c1, h1, h2⟩ := ih h e he
      exact ⟨.error e0 :: pre, c1, by simp [h1], by simpa [calls] using h2⟩
    | exit k =>
      simp only [perform]
      intro he
      obtain ⟨pre, c1, h1, h2⟩ := ih h e he
      exact ⟨.exit k :: pre, c1, by simp [h1], by simpa [calls] using h2⟩

theorem successEvents_no_error (t r : Value) (H : Handles) (ev : Event)
    (hev : ev ∈ successEvents t r H) : (∀ e1, ev ≠ .error e1) ∧ ∀ n, ev ≠ .exit n := by
  simp only [successEvents, List.mem_cons, List.mem_singleton, List.not_mem_nil,
    or_false] at hev
  rcases hev with h | h | h | h | h | h | h | h | h | h | h | h | h <;>
    subst h <;> exact ⟨fun _ hc => (by cases hc), fun _ hc => (by cases hc)⟩

/-! ## The deployment orchestrator: properties -/

/-- C1: when `DTRA_TOKEN` is missing or empty, or `TREASURY` is missing or
empty, `main` rejects with the error `Set DTRA_TOKEN & TREASURY in .env` and
adds no event to the trace, whatever the remote layer: started from the empty
trace, the trace stays empty and holds no remote call. -/
theorem main_missing_address (env : Env) (R : Remote)
    (h : (env "DTRA_TOKEN" = none ∨ env "DTRA_TOKEN" = some "") ∨
         (env "TREASURY" = none ∨ env "TREASURY" = some "")) :
    main env R [] = ([], .error ⟨"Error", "Set DTRA_TOKEN & TREASURY in .env"⟩) ∧
    calls (main env R []).1 = [] ∧
    ∀ tr, main env R tr = (tr, .error ⟨"Error", "Set DTRA_TOKEN & TREASURY in .env"⟩) := by
  have hf : truthy (env "DTRA_TOKEN") = false ∨ truthy (env "TREASURY") = false := by
    rcases h with (h | h) | (h | h)
    · exact Or.inl (by rw [h]; rfl)
    · exact Or.inl (by rw [h]; rfl)
    · exact Or.inr (by rw [h]; rfl)
    · exact Or.inr (by rw [h]; rfl)
  refine ⟨main_falsy env R [] hf, ?_, fun tr => main_falsy env R tr hf⟩
  rw [main_falsy env R [] hf]
  rfl

/-- C1, at the environment without any variable and a remote layer that would
answer every call: the run fails with the configuration error and its trace is
empty. -/
theorem main_missing_address_witness :
    main emptyEnv constantRemote []
      = ([], .error ⟨"Error", "Set DTRA_TOKEN & TREASURY in .env"⟩) :=
  (main_missing_address emptyEnv constantRemote (Or.inl (Or.inl rfl))).1

/-- C2: with a non-empty token address `t`, a non-empty treasury address `r`
and a remote layer that answers every call, `main` resolves and its trace is
exactly the thirteen events below, where `H` holds the objects the remote
layer handed back (`H.vault` is the answer to the first deploy).  The
contract-level calls among them are, in this order and once each,
`Vault.deploy(t)`, `Sale.deploy(t, r, 1000000000000000)`,
`sale.setVesting(H.vault.address)` and
`sale.setPrice(zero address, 500000000, 100000000, true)`; between two of them
the trace holds the awaited `deployed()` or `wait()` of the earlier one. -/
theorem main_success_trace (env : Env) (R : Remote) (t r : String)
    (ht : env "DTRA_TOKEN" = some t) (ht0 : t ≠ "")
    (hr : env "TREASURY" = some r) (hr0 : r ≠ "")
    (hR : ∀ h c, ∃ v, R h c = .ok v) :
    ∃ H : Handles,
      R [] (.getContractFactory "DTRAVestingVault") = .ok H.Vault ∧
      R [.getContractFactory "DTRAVestingVault"] (.deploy H.Vault [.str t]) = .ok H.vault ∧
      Answers R [] (.str t) (.str r) H ∧
      main env R [] =
        ([ .call (.getContractFactory "DTRAVestingVault"),
           .call (.deploy H.Vault [.str t]),
           .call (.deployed H.vault),
           .log ["VestingVault:", H.vault.address],
           .call (.getContractFactory "DTRACrowdsale"),
           .call (.deploy H.Sale [.str t, .str r, .int 1000000000000000]),
           .call (.deployed H.sale),
           .log ["Crowdsale:", H.sale.address],
           .call (.setVesting H.sale (.str H.vault.address)),
           .call (.wait H.tx1),
           .call (.setPrice H.sale (.str "0x0000000000000000000000000000000000000000")
             (.int 500000000) (.int 100000000) (.bool true)),
           .call (.wait H.tx2),
           .log ["HBAR price set"] ], .ok ()) ∧
      contractLevel (calls (main env R []).1) =
        [ .deploy H.Vault [.str t],
          .deploy H.Sale [.str t, .str r, .int (10000000 * 10 ^ 8)],
          .setVesting H.sale (.str H.vault.address),
          .setPrice H.sale (.str "0x0000000000000000000000000000000000000000")
            (.int (5 * 10 ^ 8)) (.int (1 * 10 ^ 8)) (.bool true) ] := by
  obtain ⟨H, hA, hmain⟩ :=
    main_success env R [] (truthy_of_some ht ht0) (truthy_of_some hr hr0) hR
  rw [ofEnv_of_some ht, ofEnv_of_some hr] at hA hmain
  refine ⟨H, hA.1, ?_, hA, ?_, ?_⟩
  · simpa [successCalls] using hA.2.1
  · rw [hmain]
    rfl
  · rw [hmain]
    simp [successEvents, calls, contractLevel, AddressZero]

/-- C2, at the addresses `0xT` and `0xR` and a remote layer that answers every
call with the same object: the run is complete. -/
theorem main_success_trace_witness :
    ∃ H : Handles, (main sampleEnv constantRemote []).2 = .ok () ∧
      contractLevel (calls (main sampleEnv constantRemote []).1) =
        [ .deploy H.Vault [.str "0xT"],
          .deploy H.Sale [.str "0xT", .str "0xR", .int 1000000000000000],
          .setVesting H.sale (.str H.vault.address),
          .setPrice H.sale (.str "0x0000000000000000000000000000000000000000")
            (.int 500000000) (.int 100000000) (.bool true) ] := by
  obtain ⟨H, _, _, _, hmain, hcl⟩ :=
    main_success_trace sampleEnv constantRemote "0xT" "0xR" rfl (by decide) rfl (by decide)
      (fun _ _ => ⟨_, rfl⟩)
  exact ⟨H, by rw [hmain], by simpa using hcl⟩

/-- C3: let `S` be a remote layer that answers every call, and let `R` answer
the first `k - 1` calls of the complete run under `S` as `S` does and reject
the `k`-th (`1 ≤ k ≤ 10`).  Then `main` under `R` rejects, and the calls it
issued are exactly the first `k` calls of the complete run: none later, none
twice.  So when a call up to the awaited sale deployment (the sixth) fails,
no `setVesting` and no `setPrice` is issued, and when a call up to the awaited
`setVesting` (the eighth) fails, no `setPrice` is issued. -/
theorem main_failure_trace (env : Env) (R S : Remote) (t r : String)
    (ht : env "DTRA_TOKEN" = some t) (ht0 : t ≠ "")
    (hr : env "TREASURY" = some r) (hr0 : r ≠ "")
    (hS : ∀ h c, ∃ v, S h c = .ok v)
    (k : Nat) (hk1 : 1 ≤ k) (hk10 : k ≤ 10)
    (hagree : ∀ j c, j + 1 < k → (calls (main env S []).1)[j]? = some c →
      R ((calls (main env S []).1).take j) c = S ((calls (main env S []).1).take j) c)
    (hfail : ∀ c, (calls (main env S []).1)[k - 1]? = some c →
      ∃ e, R ((calls (main env S []).1).take (k - 1)) c = .error e) :
    calls (main env R []).1 = (calls (main env S []).1).take k ∧
    (∃ e, (main env R []).2 = .error e) ∧
    (k ≤ 6 → ∀ c ∈ calls (main env R []).1,
      (∀ s v, c ≠ .setVesting s v) ∧ (∀ s a n d b, c ≠ .setPrice s a n d b)) ∧
    (k ≤ 8 → ∀ c ∈ calls (main env R []).1, ∀ s a n d b, c ≠ .setPrice s a n d b) := by
  have htt := truthy_of_some ht ht0
  have hrt := truthy_of_some hr hr0
  obtain ⟨⟨Vault, vault, Sale, sale, tx1, tx2⟩, hA, hmain⟩ := main_success env S [] htt hrt hS
  rw [main_truthy env R htt hrt]
  rw [ofEnv_of_some ht, ofEnv_of_some hr] at hA hmain ⊢
  rw [hmain] at hagree hfail ⊢
  simp only [List.nil_append, calls_successEvents, successCalls] at hagree hfail ⊢
  have s0 : S [] (Call.getContractFactory "DTRAVestingVault") = .ok Vault := by
    simpa [successCalls] using hA.1
  have s1 : S [Call.getContractFactory "DTRAVestingVault"] (Call.deploy Vault [.str t]) = .ok vault := by
    simpa [successCalls] using hA.2.1
  obtain ⟨d1, s2⟩ := hS [Call.getContractFactory "DTRAVestingVault", Call.deploy Vault [.str t]] (Call.deployed vault)
  have s3 : S [Call.getContractFactory "DTRAVestingVault", Call.deploy Vault [.str t], Call.deployed vault] (Call.getContractFactory "DTRACrowdsale") = .ok Sale := by
    simpa [successCalls] using hA.2.2.1
  have s4 : S [Call.getContractFactory "DTRAVestingVault", Call.deploy Vault [.str t], Call.deployed vault, Call.getContractFactory "DTRACrowdsale"] (Call.deploy Sale [.str t, .str r, .int 1000000000000000]) = .ok sale := by
    simpa [successCalls] using hA.2.2.2.1
  obtain ⟨d2, s5⟩ := hS [Call.getContractFactory "DTRAVestingVault", Call.deploy Vault [.str t], Call.deployed vault, Call.getContractFactory "DTRACrowdsale", Call.deploy Sale [.str t, .str r, .int 1000000000000000]] (Call.deployed sale)
  have s6 : S [Call.getContractFactory "DTRAVestingVault", Call.deploy Vault [.str t], Call.deployed vault, Call.getContractFactory "DTRACrowdsale", Call.deploy Sale [.str t, .str r, .int 1000000000000000], Call.deployed sale] (Call.setVesting sale (.str vault.address)) = .ok tx1 := by
    simpa [successCalls] using hA.2.2.2.2.1
  obtain ⟨w1, s7⟩ := hS [Call.getContractFactory "DTRAVestingVault", Call.deploy Vault [.str t], Call.deployed vault, Call.getContractFactory "DTRACrowdsale", Call.deploy Sale [.str t, .str r, .int 1000000000000000], Call.deployed sale, Call.setVesting sale (.str vault.address)] (Call.wait tx1)
  have s8 : S [Call.getContractFactory "DTRAVestingVault", Call.deploy Vault [.str t], Call.deployed vault, Call.getContractFactory "DTRACrowdsale", Call.deploy Sale [.str t, .str r, .int 1000000000000000], Call.deployed sale, Call.setVesting sale (.str vault.address), Call.wait tx1] (Call.setPrice sale (.str AddressZero) (.int 500000000) (.int 100000000) (.bool true)) = .ok tx2 := by
    simpa [successCalls] using hA.2.2.2.2.2
  obtain ⟨w2, s9⟩ := hS [Call.getContractFactory "DTRAVestingVault", Call.deploy Vault [.str t], Call.deployed vault, Call.getContractFactory "DTRACrowdsale", Call.deploy Sale [.str t, .str r, .int 1000000000000000], Call.deployed sale, Call.setVesting sale (.str vault.address), Call.wait tx1, Call.setPrice sale (.str AddressZero) (.int 500000000) (.int 100000000) (.bool true)] (Call.wait tx2)
  have a0 : 1 < k → R [] (Call.getContractFactory "DTRAVestingVault") = .ok Vault := fun hlt => by
    have := hagree 0 (Call.getContractFactory "DTRAVestingVault") (by omega) (by simp)
    simpa [s0] using this
  have f0 : k = 1 → ∃ e, R [] (Call.getContractFactory "DTRAVestingVault") = .error e := fun heq => by
    have := hfail (Call.getContractFactory "DTRAVestingVault") (by subst heq; simp)
    subst heq
    simpa using this
  have a1 : 2 < k → R [Call.getContractFactory "DTRAVestingVault"] (Call.deploy Vault [.str t]) = .ok vault := fun hlt => by
    have := hagree 1 (Call.deploy Vault [.str t]) (by omega) (by simp)
    simpa [s1] using this
  have f1 : k = 2 → ∃ e, R [Call.getContractFactory "DTRAVestingVault"] (Call.deploy Vault [.str t]) = .error e := fun heq => by
    have := hfail (Call.deploy Vault [.str t]) (by subst heq; simp)
    subst heq
    simpa using this
  have a2 : 3 < k → R [Call.getContractFactory "DTRAVestingVault", Call.deploy Vault [.str t]] (Call.deployed vault) = .ok d1 := fun hlt => by
    have := hagree 2 (Call.deployed vault) (by omega) (by simp)
    simpa [s2] using this
  have f2 : k = 3 → ∃ e, R [Call.getContractFactory "DTRAVestingVault", Call.deploy Vault [.str t]] (Call.deployed vault) = .error e := fun heq => by
    have := hfail (Call.deployed vault) (by subst heq; simp)
    subst heq
    simpa using this
  have a3 : 4 < k → R [Call.getContractFactory "DTRAVestingVault", Call.deploy Vault [.str t], Call.deployed vault] (Call.getContractFactory "DTRACrowdsale") = .ok Sale := fun hlt => by
    have := hagree 3 (Call.getContractFactory "DTRACrowdsale") (by omega) (by simp)
    simpa [s3] using this
  have f3 : k = 4 → ∃ e, R [Call.getContractFactory "DTRAVestingVault", Call.deploy Vault [.str t], Call.deployed vault] (Call.getContractFactory "DTRACrowdsale") = .error e := fun heq => by
    have := hfail (Call.getContractFactory "DTRACrowdsale") (by subst heq; simp)
    subst heq
    simpa using this
  have a4 : 5 < k → R [Call.getContractFactory "DTRAVestingVault", Call.deploy Vault [.str t], Call.deployed vault, Call.getContractFactory "DTRACrowdsale"] (Call.deploy Sale [.str t, .str r, .int 1000000000000000]) = .ok sale := fun hlt => by
    have := hagree 4 (Call.deploy Sale [.str t, .str r, .int 1000000000000000]) (by omega) (by simp)
    simpa [s4] using this
  have f4 : k = 5 → ∃ e, R [Call.getContractFactory "DTRAVestingVault", Call.deploy Vault [.str t], Call.deployed vault, Call.getContractFactory "DTRACrowdsale"] (Call.deploy Sale [.str t, .str r, .int 1000000000000000]) = .error e := fun heq => by
    have := hfail (Call.deploy Sale [.str t, .str r, .int 1000000000000000]) (by subst heq; simp)
    subst heq
    simpa using this
  have a5 : 6 < k → R [Call.getContractFactory "DTRAVestingVault", Call.deploy Vault [.str t], Call.deployed vault, Call.getContractFactory "DTRACrowdsale", Call.deploy Sale [.str t, .str r, .int 1000000000000000]] (Call.deployed sale) = .ok d2 := fun hlt => by
    have := hagree 5 (Call.deployed sale) (by omega) (by simp)
    simpa [s5] using this
  have f5 : k = 6 → ∃ e, R [Call.getContractFactory "DTRAVestingVault", Call.deploy Vault [.str t], Call.deployed vault, Call.getContractFactory "DTRACrowdsale", Call.deploy Sale [.str t, .str r, .int 1000000000000000]] (Call.deployed sale) = .error e := fun heq => by
    have := hfail (Call.deployed sale) (by subst heq; simp)
    subst heq
    simpa using this
  have a6 : 7 < k → R [Call.getContractFactory "DTRAVestingVault", Call.deploy Vault [.str t], Call.deployed vault, Call.getContractFactory "DTRACrowdsale", Call.deploy Sale [.str t, .str r, .int 1000000000000000], Call.deployed sale] (Call.setVesting sale (.str vault.address)) = .ok tx1 := fun hlt => by
    have := hagree 6 (Call.setVesting sale (.str vault.address)) (by omega) (by simp)
    simpa [s6] using this
  have f6 : k = 7 → ∃ e, R [Call.getContractFactory "DTRAVestingVault", Call.deploy Vault [.str t], Call.deployed vault, Call.getContractFactory "DTRACrowdsale", Call.deploy Sale [.str t, .str r, .int 1000000000000000], Call.deployed sale] (Call.setVesting sale (.str vault.address)) = .error e := fun heq => by
    have := hfail (Call.setVesting sale (.str vault.address)) (by subst heq; simp)
    subst heq
    simpa using this
  have a7 : 8 < k → R [Call.getContractFactory "DTRAVestingVault", Call.deploy Vault [.str t], Call.deployed vault, Call.getContractFactory "DTRACrowdsale", Call.deploy Sale [.str t, .str r, .int 1000000000000000], Call.deployed sale, Call.setVesting sale (.str vault.address)] (Call.wait tx1) = .ok w1 := fun hlt => by
    have := hagree 7 (Call.wait tx1) (by omega) (by simp)
    simpa [s7] using this
  have f7 : k = 8 → ∃ e, R [Call.getContractFactory "DTRAVestingVault", Call.deploy Vault [.str t], Call.deployed vault, Call.getContractFactory "DTRACrowdsale", Call.deploy Sale [.str t, .str r, .int 1000000000000000], Call.deployed sale, Call.setVesting sale (.str vault.address)] (Call.wait tx1) = .error e := fun heq => by
    have := hfail (Call.wait tx1) (by subst heq; simp)
    subst heq
    simpa using this
  have a8 : 9 < k → R [Call.getContractFactory "DTRAVestingVault", Call.deploy Vault [.str t], Call.deployed vault, Call.getContractFactory "DTRACrowdsale", Call.deploy Sale [.str t, .str r, .int 1000000000000000], Call.deployed sale, Call.setVesting sale (.str vault.address), Call.wait tx1] (Call.setPrice sale (.str AddressZero) (.int 500000000) (.int 100000000) (.bool true)) = .ok tx2 := fun hlt => by
    have := hagree 8 (Call.setPrice sale (.str AddressZero) (.int 500000000) (.int 100000000) (.bool true)) (by omega) (by simp)
    simpa [s8] using this
  have f8 : k = 9 → ∃ e, R [Call.getContractFactory "DTRAVestingVault", Call.deploy Vault [.str t], Call.deployed vault, Call.getContractFactory "DTRACrowdsale", Call.deploy Sale [.str t, .str r, .int 1000000000000000], Call.deployed sale, Call.setVesting sale (.str vault.address), Call.wait tx1] (Call.setPrice sale (.str AddressZero) (.int 500000000) (.int 100000000) (.bool true)) = .error e := fun heq => by
    have := hfail (Call.setPrice sale (.str AddressZero) (.int 500000000) (.int 100000000) (.bool true)) (by subst heq; simp)
    subst heq
    simpa using this
  have a9 : 10 < k → R [Call.getContractFactory "DTRAVestingVault", Call.deploy Vault [.str t], Call.deployed vault, Call.getContractFactory "DTRACrowdsale", Call.deploy Sale [.str t, .str r, .int 1000000000000000], Call.deployed sale, Call.setVesting sale (.str vault.address), Call.wait tx1, Call.setPrice sale (.str AddressZero) (.int 500000000) (.int 100000000) (.bool true)] (Call.wait tx2) = .ok w2 := fun hlt => by
    have := hagree 9 (Call.wait tx2) (by omega) (by simp)
    simpa [s9] using this
  have f9 : k = 10 → ∃ e, R [Call.getContractFactory "DTRAVestingVault", Call.deploy Vault [.str t], Call.deployed vault, Call.getContractFactory "DTRACrowdsale", Call.deploy Sale [.str t, .str r, .int 1000000000000000], Call.deployed sale, Call.setVesting sale (.str vault.address), Call.wait tx1, Call.setPrice sale (.str AddressZero) (.int 500000000) (.int 100000000) (.bool true)] (Call.wait tx2) = .error e := fun heq => by
    have := hfail (Call.wait tx2) (by subst heq; simp)
    subst heq
    simpa using this
  clear hagree hfail
  interval_cases k
  · obtain ⟨e, he⟩ := f0 rfl
    simp [bind_apply, remoteCall, consoleLog, calls, he]
  · obtain ⟨e, he⟩ := f1 rfl
    simp [bind_apply, remoteCall, consoleLog, calls, he, a0 (by omega)]
  · obtain ⟨e, he⟩ := f2 rfl
    simp [bind_apply, remoteCall, consoleLog, calls, he, a0 (by omega), a1 (by omega)]
  · obtain ⟨e, he⟩ := f3 rfl
    simp [bind_apply, remoteCall, consoleLog, calls, he, a0 (by omega), a1 (by omega), a2 (by omega)]
  · obtain ⟨e, he⟩ := f4 rfl
    simp [bind_apply, remoteCall, consoleLog, calls, he, a0 (by omega), a1 (by omega), a2 (by omega), a3 (by omega)]
  · obtain ⟨e, he⟩ := f5 rfl
    simp [bind_apply, remoteCall, consoleLog, calls, he, a0 (by omega), a1 (by omega), a2 (by omega), a3 (by omega), a4 (by omega)]
  · obtain ⟨e, he⟩ := f6 rfl
    simp [bind_apply, remoteCall, consoleLog, calls, he, a0 (by omega), a1 (by omega), a2 (by omega), a3 (by omega), a4 (by omega), a5 (by omega)]
  · obtain ⟨e, he⟩ := f7 rfl
    simp [bind_apply, remoteCall, consoleLog, calls, he, a0 (by omega), a1 (by omega), a2 (by omega), a3 (by omega), a4 (by omega), a5 (by omega), a6 (by omega)]
  · obtain ⟨e, he⟩ := f8 rfl
    simp [bind_apply, remoteCall, consoleLog, calls, he, a0 (by omega), a1 (by omega), a2 (by omega), a3 (by omega), a4 (by omega), a5 (by omega), a6 (by omega), a7 (by omega)]
  · obtain ⟨e, he⟩ := f9 rfl
    simp [bind_apply, remoteCall, consoleLog, calls, he, a0 (by omega), a1 (by omega), a2 (by omega), a3 (by omega), a4 (by omega), a5 (by omega), a6 (by omega), a7 (by omega), a8 (by omega)]

/-- C3, at the addresses `0xT` and `0xR` and a remote layer that rejects its
fifth call (the sale deployment): the run issues the first five calls of the
complete run and no more. -/
theorem main_failure_trace_witness :
    calls (main sampleEnv (failingAfter 4) []).1
      = (calls (main sampleEnv constantRemote []).1).take 5 := by
  have hT : (calls (main sampleEnv constantRemote []).1).length = 10 := by rfl
  refine (main_failure_trace sampleEnv (failingAfter 4) constantRemote "0xT" "0xR"
    rfl (by decide) rfl (by decide) (fun _ _ => ⟨_, rfl⟩) 5 (by decide) (by decide) ?_ ?_).1
  · intro j c hj _
    have hlen : ((calls (main sampleEnv constantRemote []).1).take j).length ≠ 4 := by
      rw [List.length_take, hT]
      omega
    simp only [failingAfter, constantRemote, if_neg hlen]
  · intro c _
    have hlen : ((calls (main sampleEnv constantRemote []).1).take (5 - 1)).length = 4 := by
      rw [List.length_take, hT]
      rfl
    exact ⟨⟨"Error", "reverted"⟩, by simp only [failingAfter, if_pos hlen]⟩

/-- C5: the deploy script ends with exit code 0 exactly when both addresses
are present and the run is complete (all thirteen events performed, every
remote call answered), and with exit code 1 otherwise.  When it ends with 1,
the events are those of `main` followed by one `console.error` of the very
value `main` rejected with and then `process.exit(1)`; no error was printed
before; and that value is the configuration error when an address is missing
or empty, and otherwise the value with which the remote layer rejected the
last call issued. -/
theorem deployScript_exit_code (env : Env) (R : Remote) :
    ((deployScript env R []).exitCode = 0 ↔
      truthy (env "DTRA_TOKEN") = true ∧ truthy (env "TREASURY") = true ∧
      ∃ H : Handles,
        (deployScript env R []).events
          = successEvents (.ofEnv (env "DTRA_TOKEN")) (.ofEnv (env "TREASURY")) H ∧
        answeredAll R [] (successCalls (.ofEnv (env "DTRA_TOKEN")) (.ofEnv (env "TREASURY")) H)) ∧
    ((deployScript env R []).exitCode ≠ 0 →
      (deployScript env R []).exitCode = 1 ∧
      ∃ pre e, main env R [] = (pre, .error e) ∧
        (deployScript env R []).events = pre ++ [.error e, .exit 1] ∧
        (∀ ev ∈ pre, (∀ e1, ev ≠ .error e1) ∧ ∀ n, ev ≠ .exit n) ∧
        ((pre = [] ∧ e = ⟨"Error", "Set DTRA_TOKEN & TREASURY in .env"⟩ ∧
            (truthy (env "DTRA_TOKEN") = false ∨ truthy (env "TREASURY") = false)) ∨
          (truthy (env "DTRA_TOKEN") = true ∧ truthy (env "TREASURY") = true ∧
            ∃ pre1 c, pre = pre1 ++ [.call c] ∧ R (calls pre1) c = .error e))) := by
  by_cases hv : truthy (env "DTRA_TOKEN") = true ∧ truthy (env "TREASURY") = true
  · obtain ⟨ht, hr⟩ := hv
    obtain ⟨H, hmain⟩ := main_normal env R [] ht hr
    simp only [calls, List.nil_append] at hmain
    generalize hE : successEvents (Value.ofEnv (env "DTRA_TOKEN"))
      (Value.ofEnv (env "TREASURY")) H = E at hmain
    cases hres : (perform R [] E).2 with
    | ok u =>
      obtain ⟨h1, h2⟩ := perform_ok R E [] hres
      have hds : deployScript env R [] = ⟨E, 0⟩ := by
        simp [deployScript, hmain, hres, h1]
      rw [hds]
      refine ⟨⟨fun _ => ⟨ht, hr, H, hE.symm, ?_⟩, fun _ => rfl⟩, fun hne => absurd rfl hne⟩
      rw [← calls_successEvents, hE]
      exact h2
    | error e =>
      obtain ⟨pre1, c, h1, h2⟩ := perform_error R E [] e hres
      obtain ⟨n, hn, h3⟩ := perform_take R E []
      have hds : deployScript env R [] = ⟨(perform R [] E).1 ++ [.error e, .exit 1], 1⟩ := by
        simp [deployScript, hmain, hres]
      rw [hds]
      refine ⟨⟨fun h0 => absurd h0 (Nat.succ_ne_zero 0), ?_⟩,
        fun _ => ⟨rfl, (perform R [] E).1, e, ?_, rfl, ?_,
          Or.inr ⟨ht, hr, pre1, c, h1, by simpa using h2⟩⟩⟩
      · rintro ⟨_, _, H1, hev, _⟩
        have hmem : Event.exit 1 ∈
            successEvents (.ofEnv (env "DTRA_TOKEN")) (.ofEnv (env "TREASURY")) H1 := by
          rw [← hev]
          simp
        exact ((successEvents_no_error _ _ _ _ hmem).2 1 rfl).elim
      · rw [hmain, hres]
      · intro ev hev
        rw [h3, ← hE] at hev
        exact successEvents_no_error _ _ _ ev (List.mem_of_mem_take hev)
  · have hf : truthy (env "DTRA_TOKEN") = false ∨ truthy (env "TREASURY") = false := by
      by_cases ht : truthy (env "DTRA_TOKEN") = true
      · right
        by_cases hr : truthy (env "TREASURY") = true
        · exact absurd ⟨ht, hr⟩ hv
        · simpa using hr
      · left
        simpa using ht
    have hmain := main_falsy env R [] hf
    have hds : deployScript env R []
        = ⟨[.error ⟨"Error", "Set DTRA_TOKEN & TREASURY in .env"⟩, .exit 1], 1⟩ := by
      simp [deployScript, hmain]
    rw [hds]
    refine ⟨⟨fun h0 => absurd h0 (Nat.succ_ne_zero 0), fun h => absurd ⟨h.1, h.2.1⟩ hv⟩,
      fun _ => ⟨rfl, [], _, hmain, rfl, ?_, Or.inl ⟨rfl, rfl, hf⟩⟩⟩
    intro ev hev
    cases hev

/-- C5, at the environment without any variable: the script ends with exit
code 1. -/
theorem deployScript_exit_code_witness :
    (deployScript emptyEnv constantRemote []).exitCode = 1 :=
  ((deployScript_exit_code emptyEnv constantRemote).2 (by decide)).1

theorem perform_cons_call (R : Remote) (h : List Call) (c : Call) (es : List Event) :
    ∃ rest, (perform R h (.call c :: es)).1 = .call c :: rest := by
  cases hc : R h c with
  | error e => exact ⟨[], by simp [perform, hc]⟩
  | ok v => exact ⟨(perform R (h ++ [c]) es).1, by simp [perform, hc]⟩

/-- C7, as stated, fails at an environment with both addresses and no
credential, against a remote layer that answers every call: the resolved
profile has no signing credential, and the orchestrator issues both
deployments and both setters. -/
theorem deploys_without_credential :
    (hardhatConfig sampleEnv).map (fun cfg => cfg.networks.hederaTestnet.accounts)
      = .ok none ∧
    contractLevel (calls (main sampleEnv constantRemote []).1) =
      [ .deploy ⟨"0xC"⟩ [.str "0xT"],
        .deploy ⟨"0xC"⟩ [.str "0xT", .str "0xR", .int 1000000000000000],
        .setVesting ⟨"0xC"⟩ (.str "0xC"),
        .setPrice ⟨"0xC"⟩ (.str "0x0000000000000000000000000000000000000000")
          (.int 500000000) (.int 100000000) (.bool true) ] :=
  ⟨rfl, rfl⟩

/-- C7, amended: in a run whose resolved network profile has no signing
credential, the orchestrator issues no deploy and no setter call exactly when
`DTRA_TOKEN` or `TREASURY` is missing or empty or the remote layer rejects the
first `getContractFactory`.  The remote layer of the run is the one the
toolchain `hardhat` builds from the exported configuration `cfg`, which
without credential is the fourth object literal with `accounts` undefined. -/
theorem no_signing_call_iff (env : Env) (hardhat : HardhatConfig → Remote)
    (cfg : HardhatConfig) (hcfg : hardhatConfig env = .ok cfg)
    (hcred : cfg.networks.hederaTestnet.accounts = none) :
    contractLevel (calls (main env (hardhat cfg) []).1) = [] ↔
      (truthy (env "DTRA_TOKEN") = false ∨ truthy (env "TREASURY") = false ∨
        ∃ e, hardhat (exports4 env none) [] (.getContractFactory "DTRAVestingVault")
          = .error e) := by
  have hcfg4 : cfg = exports4 env none := by
    rw [hardhatConfig_eq env] at hcfg
    cases hcfg
    simp only [exports4] at hcred
    simp only [exports4, hcred]
  subst hcfg4
  generalize hardhat (exports4 env none) = R
  by_cases ht : truthy (env "DTRA_TOKEN") = true
  · by_cases hr : truthy (env "TREASURY") = true
    · cases h0 : R [] (.getContractFactory "DTRAVestingVault") with
      | error e =>
        have hm : main env R [] = ([.call (.getContractFactory "DTRAVestingVault")], .error e) := by
          rw [main_truthy env R ht hr]
          simp [bind_apply, remoteCall, calls, h0]
        rw [hm]
        simp [calls, contractLevel]
      | ok Vault =>
        obtain ⟨H, hm⟩ := main_normal env R [] ht hr
        obtain ⟨rest, hrest⟩ := perform_cons_call R [Call.getContractFactory "DTRAVestingVault"]
          (.deploy H.Vault [.ofEnv (env "DTRA_TOKEN")])
          ((successEvents (.ofEnv (env "DTRA_TOKEN")) (.ofEnv (env "TREASURY")) H).drop 2)
        have hp : (perform R (calls [])
            (successEvents (.ofEnv (env "DTRA_TOKEN")) (.ofEnv (env "TREASURY")) H)).1
            = .call (.getContractFactory "DTRAVestingVault") ::
              .call (.deploy H.Vault [.ofEnv (env "DTRA_TOKEN")]) :: rest := by
          rw [← hrest]
          simp [successEvents, perform, calls, h0]
        rw [hm, hp]
        simp [calls, contractLevel, ht, hr]
    · have hm := main_falsy env R [] (Or.inr (by simpa using hr))
      rw [hm]
      simp [calls, contractLevel, hr]
  · have hm := main_falsy env R [] (Or.inl (by simpa using ht))
    rw [hm]
    simp [calls, contractLevel, ht]

/-- C7, amended, at an environment with both addresses and no credential and
a toolchain whose remote layer for a configuration without credential rejects
the first call: no deploy and no setter call is issued. -/
theorem no_signing_call_iff_witness :
    contractLevel (calls (main sampleEnv (signerlessHardhat (exports4 sampleEnv none)) []).1)
      = [] :=
  (no_signing_call_iff sampleEnv signerlessHardhat (exports4 sampleEnv none)
    (hardhatConfig_eq sampleEnv) rfl).mpr (Or.inr (Or.inr ⟨_, rfl⟩))

/-- C8, as stated, fails in a complete run: the output line with the vault
address is the fourth event, and remote calls follow it, the request for the
sale factory right after it and the price setter six events later. -/
theorem vault_line_precedes_later_calls :
    (main sampleEnv constantRemote []).1[3]? = some (.log ["VestingVault:", "0xC"]) ∧
    (main sampleEnv constantRemote []).1[4]?
      = some (.call (.getContractFactory "DTRACrowdsale")) ∧
    (main sampleEnv constantRemote []).1[10]?
      = some (.call (.setPrice ⟨"0xC"⟩ (.str "0x0000000000000000000000000000000000000000")
          (.int 500000000) (.int 100000000) (.bool true))) :=
  ⟨rfl, rfl, rfl⟩

/-- C8, amended: in every run each output line is emitted as soon as the step
it reports has completed.  Without an address nothing is emitted.  With both
addresses the run is exactly the events of `successEvents`, built from the
answers of the remote layer, performed in order up to the first call the
remote layer rejects.  So: once the remote layer has answered the awaited
vault deployment, the fourth event is the vault-address line and the fifth the
request for the sale factory; once it has answered the awaited sale
deployment, the eighth event is the sale-address line and the ninth the
`setVesting` call; once it has answered all ten calls, the run is the complete
list, whose last event is the price confirmation.  Conversely every call that
is followed by another event was answered, and when the price confirmation is
printed the run is the complete list and `main` resolves, so that no remote
call follows the confirmation. -/
theorem main_events_order (env : Env) (R : Remote) :
    ((truthy (env "DTRA_TOKEN") = false ∨ truthy (env "TREASURY") = false) →
      (main env R []).1 = []) ∧
    (truthy (env "DTRA_TOKEN") = true → truthy (env "TREASURY") = true →
      main env R [] =
        perform R [] (successEvents (.ofEnv (env "DTRA_TOKEN")) (.ofEnv (env "TREASURY"))
          (handlesOf (.ofEnv (env "DTRA_TOKEN")) (.ofEnv (env "TREASURY")) R [])) ∧
      (∀ Vault vault d1 : Handle,
        R [] (.getContractFactory "DTRAVestingVault") = .ok Vault →
        R [.getContractFactory "DTRAVestingVault"]
          (.deploy Vault [.ofEnv (env "DTRA_TOKEN")]) = .ok vault →
        R [.getContractFactory "DTRAVestingVault", .deploy Vault [.ofEnv (env "DTRA_TOKEN")]]
          (.deployed vault) = .ok d1 →
        (main env R []).1.take 5 =
          [ .call (.getContractFactory "DTRAVestingVault"),
            .call (.deploy Vault [.ofEnv (env "DTRA_TOKEN")]),
            .call (.deployed vault),
            .log ["VestingVault:", vault.address],
            .call (.getContractFactory "DTRACrowdsale") ] ∧
        ∀ Sale sale d2 : Handle,
          R [.getContractFactory "DTRAVestingVault", .deploy Vault [.ofEnv (env "DTRA_TOKEN")],
              .deployed vault]
            (.getContractFactory "DTRACrowdsale") = .ok Sale →
          R [.getContractFactory "DTRAVestingVault", .deploy Vault [.ofEnv (env "DTRA_TOKEN")],
              .deployed vault, .getContractFactory "DTRACrowdsale"]
            (.deploy Sale [.ofEnv (env "DTRA_TOKEN"), .ofEnv (env "TREASURY"),
              .int 1000000000000000]) = .ok sale →
          R [.getContractFactory "DTRAVestingVault", .deploy Vault [.ofEnv (env "DTRA_TOKEN")],
              .deployed vault, .getContractFactory "DTRACrowdsale",
              .deploy Sale [.ofEnv (env "DTRA_TOKEN"), .ofEnv (env "TREASURY"),
                .int 1000000000000000]]
            (.deployed sale) = .ok d2 →
          ((main env R []).1.drop 5).take 4 =
            [ .call (.deploy Sale [.ofEnv (env "DTRA_TOKEN"), .ofEnv (env "TREASURY"),
                .int 1000000000000000]),
              .call (.deployed sale),
              .log ["Crowdsale:", sale.address],
              .call (.setVesting sale (.str vault.address)) ]) ∧
      (answeredAll R [] (successCalls (.ofEnv (env "DTRA_TOKEN")) (.ofEnv (env "TREASURY"))
          (handlesOf (.ofEnv (env "DTRA_TOKEN")) (.ofEnv (env "TREASURY")) R [])) →
        main env R [] =
          (successEvents (.ofEnv (env "DTRA_TOKEN")) (.ofEnv (env "TREASURY"))
            (handlesOf (.ofEnv (env "DTRA_TOKEN")) (.ofEnv (env "TREASURY")) R []), .ok ()))) ∧
    (∃ n, (main env R []).1 =
      (successEvents (.ofEnv (env "DTRA_TOKEN")) (.ofEnv (env "TREASURY"))
        (handlesOf (.ofEnv (env "DTRA_TOKEN")) (.ofEnv (env "TREASURY")) R [])).take n) ∧
    answeredAll R [] (calls (main env R []).1.dropLast) ∧
    (Event.log ["HBAR price set"] ∈ (main env R []).1 →
      main env R [] =
        (successEvents (.ofEnv (env "DTRA_TOKEN")) (.ofEnv (env "TREASURY"))
          (handlesOf (.ofEnv (env "DTRA_TOKEN")) (.ofEnv (env "TREASURY")) R []), .ok ())) := by
  by_cases hv : truthy (env "DTRA_TOKEN") = true ∧ truthy (env "TREASURY") = true
  · obtain ⟨ht, hr⟩ := hv
    have hmain := main_run env R [] ht hr
    simp only [calls, List.nil_append] at hmain
    generalize Value.ofEnv (env "DTRA_TOKEN") = t at hmain ⊢
    generalize Value.ofEnv (env "TREASURY") = r at hmain ⊢
    obtain ⟨n, hn, hp⟩ := perform_take R (successEvents t r (handlesOf t r R [])) []
    have hans := perform_answered R (successEvents t r (handlesOf t r R [])) []
    refine ⟨fun hf => ?_, fun _ _ => ⟨hmain, ?_, ?_⟩, ⟨n, by rw [hmain, hp]⟩,
      by rw [hmain]; exact hans, ?_⟩
    · rcases hf with hf | hf
      · rw [ht] at hf
        cases hf
      · rw [hr] at hf
        cases hf
    · intro Vault vault d1 h0 h1 h2
      constructor
      · rw [hmain]
        cases h3 : R [.getContractFactory "DTRAVestingVault", .deploy Vault [t], .deployed vault]
            (.getContractFactory "DTRACrowdsale") <;>
          simp [perform, successEvents, handlesOf, answer, h0, h1, h2, h3]
      · intro Sale sale d2 h3 h4 h5
        rw [hmain]
        cases h6 : R [.getContractFactory "DTRAVestingVault", .deploy Vault [t], .deployed vault,
            .getContractFactory "DTRACrowdsale", .deploy Sale [t, r, .int 1000000000000000],
            .deployed sale] (.setVesting sale (.str vault.address)) <;>
          simp [perform, successEvents, handlesOf, answer, h0, h1, h2, h3, h4, h5, h6]
    · intro hall
      rw [hmain]
      exact perform_of_answered R _ [] (by rw [calls_successEvents]; exact hall)
    · rw [hmain]
      intro hmem
      have hn13 : n = 13 := by
        simp only [successEvents, List.length_cons, List.length_nil] at hn
        simp only [hp] at hmem
        interval_cases n <;> first | rfl | (simp [successEvents] at hmem)
      subst hn13
      have hfull : (perform R [] (successEvents t r (handlesOf t r R []))).1
          = successEvents t r (handlesOf t r R []) := by
        rw [hp]
        rfl
      rw [hfull] at hans
      have hall : answeredAll R [] (calls (successEvents t r (handlesOf t r R []))) := hans
      rw [perform_of_answered R _ [] hall]
  · have hf : truthy (env "DTRA_TOKEN") = false ∨ truthy (env "TREASURY") = false := by
      by_cases ht : truthy (env "DTRA_TOKEN") = true
      · right
        by_cases hr : truthy (env "TREASURY") = true
        · exact absurd ⟨ht, hr⟩ hv
        · simpa using hr
      · left
        simpa using ht
    rw [main_falsy env R [] hf]
    refine ⟨fun _ => rfl, fun ht hr => absurd ⟨ht, hr⟩ hv, ⟨0, rfl⟩, trivial, fun h => by cases h⟩

/-- C9: with both addresses present and a remote layer that answers every
call and assigns a fresh address to every deployment, two runs of the script,
the second against the remote layer as the first left it, are both complete
with exit code 0; they issue four deploy calls in total, the second run
requesting its own factories and deploying its own two contracts; and the
vault address and the sale address printed by the second run differ from
those printed by the first. -/
theorem two_runs_deploy_twice (env : Env) (R : Remote) (t r : String)
    (ht : env "DTRA_TOKEN" = some t) (ht0 : t ≠ "")
    (hr : env "TREASURY" = some r) (hr0 : r ≠ "")
    (hR : ∀ h c, ∃ v, R h c = .ok v) (hfresh : FreshAddresses R) :
    ∃ H1 H2 : Handles,
      deployScript env R [] = ⟨successEvents (.str t) (.str r) H1, 0⟩ ∧
      deployScript env R (successEvents (.str t) (.str r) H1)
        = ⟨successEvents (.str t) (.str r) H1 ++ successEvents (.str t) (.str r) H2, 0⟩ ∧
      (calls (successEvents (.str t) (.str r) H1
          ++ successEvents (.str t) (.str r) H2)).filter Call.isDeploy
        = [ .deploy H1.Vault [.str t],
            .deploy H1.Sale [.str t, .str r, .int 1000000000000000],
            .deploy H2.Vault [.str t],
            .deploy H2.Sale [.str t, .str r, .int 1000000000000000] ] ∧
      H2.vault.address ≠ H1.vault.address ∧
      H2.sale.address ≠ H1.sale.address := by
  have htt := truthy_of_some ht ht0
  have hrt := truthy_of_some hr hr0
  obtain ⟨H1, hA1, hm1⟩ := main_success env R [] htt hrt hR
  rw [ofEnv_of_some ht, ofEnv_of_some hr] at hA1 hm1
  obtain ⟨H2, hA2, hm2⟩ := main_success env R (successEvents (.str t) (.str r) H1) htt hrt hR
  rw [ofEnv_of_some ht, ofEnv_of_some hr] at hA2 hm2
  refine ⟨H1, H2, ?_, ?_, ?_, ?_, ?_⟩
  · simp [deployScript, hm1]
  · simp [deployScript, hm2]
  · simp [successEvents, calls, Call.isDeploy]
  · have h1 := hA1.2.1
    have h2 := hA2.2.1
    simp only [calls_successEvents, successCalls, List.take, List.nil_append] at h1 h2
    exact hfresh _ 1 H2.Vault H1.Vault [.str t] [.str t] H2.vault H1.vault rfl
      (by simpa [calls] using h1) h2
  · have h1 := hA1.2.2.2.1
    have h2 := hA2.2.2.2.1
    simp only [calls_successEvents, successCalls, List.take, List.nil_append] at h1 h2
    exact hfresh _ 4 H2.Sale H1.Sale [.str t, .str r, .int 1000000000000000]
      [.str t, .str r, .int 1000000000000000] H2.sale H1.sale rfl
      (by simpa [calls] using h1) h2

/-- The remote layer `countingRemote` assigns a fresh address to every
deployment. -/
theorem countingRemote_fresh : FreshAddresses countingRemote := by
  intro h j f f1 a a1 v v1 hj h1 h2 heq
  have hlt : j < h.length := by
    by_contra hge
    rw [List.getElem?_eq_none (by omega)] at hj
    cases hj
  simp only [countingRemote, Except.ok.injEq] at h1 h2
  subst h1 h2
  have hlen := congrArg String.length heq
  simp only [String.length, List.length_replicate, List.length_take] at hlen
  omega

/-- C8, amended, at the addresses `0xT` and `0xR` and a remote layer that
answers every call: the first five events end with the vault-address line and
the request for the sale factory. -/
theorem main_events_order_witness :
    (main sampleEnv constantRemote []).1.take 5 =
      [ .call (.getContractFactory "DTRAVestingVault"),
        .call (.deploy ⟨"0xC"⟩ [.str "0xT"]),
        .call (.deployed ⟨"0xC"⟩),
        .log ["VestingVault:", "0xC"],
        .call (.getContractFactory "DTRACrowdsale") ] :=
  (((main_events_order sampleEnv constantRemote).2.1 rfl rfl).2.1 ⟨"0xC"⟩ ⟨"0xC"⟩ ⟨"0xC"⟩
    rfl rfl rfl).1

/-- C9, at the addresses `0xT` and `0xR` and the remote layer
`countingRemote`: the two runs are complete and print different vault
addresses and different sale addresses. -/
theorem two_runs_deploy_twice_witness :
    ∃ H1 H2 : Handles,
      deployScript sampleEnv countingRemote []
        = ⟨successEvents (.str "0xT") (.str "0xR") H1, 0⟩ ∧
      deployScript sampleEnv countingRemote (successEvents (.str "0xT") (.str "0xR") H1)
        = ⟨successEvents (.str "0xT") (.str "0xR") H1
            ++ successEvents (.str "0xT") (.str "0xR") H2, 0⟩ ∧
      H2.vault.address ≠ H1.vault.address ∧
      H2.sale.address ≠ H1.sale.address := by
  obtain ⟨H1, H2, h1, h2, _, h3, h4⟩ :=
    two_runs_deploy_twice sampleEnv countingRemote "0xT" "0xR" rfl (by decide) rfl (by decide)
      (fun _ _ => ⟨_, rfl⟩) countingRemote_fresh
  exact ⟨H1, H2, h1, h2, h3, h4⟩

end DtraEscrow
